import Mathlib

/-!
Verification of the Grid-Based Numbering script
(`manriqueToolsPy.extension/Grid-Tools.tab/Grid-Tools.panel/Grid-BasedNumbering.pushbutton/script.py`).

The script numbers family instances of one category: the user picks a start
element and a sort option (X axis, Y axis, proximity), the script sorts the
remaining instances, and for each element with a determinable location it
computes a grid-square label from the nearest letter grid and nearest number
grid and writes the label and a running counter into two shared parameters.

Shallow embedding conventions:
- coordinates are rationals; host geometry (curve distance to a point,
  curve midpoint evaluation) is carried as data on the embedded objects,
  since the host API computes it externally;
- the proximity comparisons of the script use the Euclidean distance
  `XYZ.DistanceTo`; the embedding sorts by squared Euclidean distance,
  which induces the same order (proved below via `Real.sqrt`
  monotonicity), keeping every definition executable;
- Python `sorted` is a stable sort by key; it is embedded as
  `List.mergeSort` with the comparator `fun a b => decide (key a ≤ key b)`;
- the parameter writes performed inside the transaction are collected in
  an explicit output list, and each loop iteration that passes the
  location check is recorded as an `Entry`.
-/

/-- A 3D point, as the host `XYZ` value carried by element locations;
coordinates are embedded as integers, which suffices for every claim here
(all of them compare coordinates and distances, none divides them). -/
structure Point where
  x : ℤ
  y : ℤ
  z : ℤ
deriving DecidableEq, Repr

/-- The midpoint data of a host curve: `curve.Evaluate(0.5, True)` is computed
by the host geometry engine, so it is carried as a field. -/
structure Curve where
  evalMid : Point
deriving DecidableEq, Repr

/-- The `Location` property of a host element: a `LocationPoint`, a
`LocationCurve`, or some other location kind (matched by neither
`isinstance` test in `GetElementLocation`). -/
inductive Location where
  | pointLoc (p : Point)
  | curveLoc (c : Curve)
  | otherLoc
deriving DecidableEq, Repr

/-- A writable parameter slot on an element, as seen through
`LookupParameter`: it exists and is either read-only or writable. -/
structure Param where
  isReadOnly : Bool
deriving DecidableEq, Repr

/-- A family instance as the numbering pass sees it: an identity
(`ElementId`), a location, and the two parameter slots the script looks up
by name (`none` models `LookupParameter` returning no parameter). -/
structure Element where
  id : Nat
  location : Location
  gridSquareParam : Option Param
  numberParam : Option Param
deriving DecidableEq, Repr

/-- A grid element: its `Name` and its curve geometry, exposed only through
the scalar distance `g.Curve.Distance(point)` computed by the host. -/
structure Grid where
  name : String
  curveDist : Point → ℤ

namespace GridHelper

/-- Embedding of `GridHelper.IsAlphabetic`: false on the empty string, otherwise tests
whether the first character is alphabetic. -/
def IsAlphabetic (input_str : String) : Bool :=
  match input_str.data with
  | [] => false
  | c :: _ => c.isAlpha

/-- Embedding of `GridHelper.IsNumeric`: false on the empty string, otherwise tests
whether the first character is a digit. -/
def IsNumeric (input_str : String) : Bool :=
  match input_str.data with
  | [] => false
  | c :: _ => c.isDigit

/-- Embedding of `GridHelper.GetElementLocation`: `None` for a missing element, the point
of a `LocationPoint`, the curve midpoint of a `LocationCurve`, and `None`
for any other location kind. -/
def GetElementLocation : Option Element → Option Point
  | none => none
  | some e =>
    match e.location with
    | Location.pointLoc p => some p
    | Location.curveLoc c => some c.evalMid
    | Location.otherLoc => none

end GridHelper

/-- Squared Euclidean distance between two points. Sorting by it gives the
same order as sorting by `XYZ.DistanceTo` (see `edist_le_edist_iff`). -/
def sqDist (p q : Point) : ℤ :=
  (p.x - q.x) ^ 2 + (p.y - q.y) ^ 2 + (p.z - q.z) ^ 2

/-- Euclidean distance between two points, as the host `XYZ.DistanceTo`
computes it. -/
noncomputable def edist2 (p q : Point) : ℝ :=
  Real.sqrt ((sqDist p q : ℤ) : ℝ)

/-- First element of a list attaining the minimal key, with ties resolved
in favour of the earliest element (the behaviour of a stable ascending
sort followed by taking the first element). -/
def firstMinBy {α β : Type} [LinearOrder β] (f : α → β) : List α → Option α
  | [] => none
  | a :: l =>
    match firstMinBy f l with
    | none => some a
    | some m => if f a ≤ f m then some a else some m

/-- Host state consulted by `ensure_parameter_exists`: whether a shared
parameter file is defined, whether a binding for the parameter name is
already present in the document, and whether inserting a new binding
succeeds. -/
structure SchemaEnv where
  hasSharedParamFile : Bool
  bindingExists : Bool
  insertSucceeds : Bool
deriving DecidableEq, Repr

/-- Control flow of `GridHelper.ensure_parameter_exists`, observed through
the `TaskDialog.Show` notifications it raises: with no shared parameter
file it shows an error dialog, rolls the transaction back and returns;
with an existing binding it merges categories silently; otherwise it
inserts a new binding and shows an error dialog if the insert fails. In
every branch the function returns normally (it never raises), which the
totality of this definition expresses. -/
def ensure_parameter_exists (env : SchemaEnv) (param_name : String) : List String :=
  if !env.hasSharedParamFile then
    ["No shared parameter file is defined. Please set one in Revit Options."]
  else if env.bindingExists then
    []
  else if env.insertSucceeds then
    []
  else
    ["Could not bind parameter: " ++ param_name]

/-- The attribute names defined on the `GridHelper` class (Python resolves
attributes by exact, case-sensitive name). -/
def gridHelperAttributes : List String :=
  ["IsAlphabetic", "IsNumeric", "GetElementLocation", "ensure_parameter_exists"]

/-- The attribute name the main script looks up on `GridHelper` at the
parameter-schema step (`GridHelper.EnsureParameterExists(doc, ...)`). -/
def ensureCallSiteName : String := "EnsureParameterExists"

/-- Sort key of the `numberOnXAxis` branch: the X coordinate of the
element location, or `0` when the location is `None`. -/
def keyX (e : Element) : ℤ :=
  match GridHelper.GetElementLocation (some e) with
  | some p => p.x
  | none => 0

/-- Sort key of the `numberOnYAxis` branch: the Y coordinate of the
element location, or `0` when the location is `None`. -/
def keyY (e : Element) : ℤ :=
  match GridHelper.GetElementLocation (some e) with
  | some p => p.y
  | none => 0

/-- Sort key of the proximity branches: squared distance from the element
location to the start point, or `⊤` (the embedding of the float infinity sentinel) when
the location is `None`. -/
def keyProx (startPt : Point) (e : Element) : WithTop ℤ :=
  match GridHelper.GetElementLocation (some e) with
  | some p => (sqDist p startPt : ℤ)
  | none => ⊤

/-- STEP 8 sort of the non-start elements: `sorted(others, key=...)` with
the key selected by the three checkbox booleans; the final `else` branch
repeats the proximity sort. -/
def sortedOthers (startPt : Point) (others : List Element)
    (numberOnXAxis numberOnYAxis numberByProximity : Bool) : List Element :=
  if numberOnXAxis then
    others.mergeSort (fun a b => decide (keyX a ≤ keyX b))
  else if numberOnYAxis then
    others.mergeSort (fun a b => decide (keyY a ≤ keyY b))
  else if numberByProximity then
    others.mergeSort (fun a b => decide (keyProx startPt a ≤ keyProx startPt b))
  else
    others.mergeSort (fun a b => decide (keyProx startPt a ≤ keyProx startPt b))

/-- Source line `others = [e for e in selectedElements if e.Id != firstElem.Id]`. -/
def removeFirst (firstElem : Element) (selectedElements : List Element) : List Element :=
  selectedElements.filter (fun e => e.id ≠ firstElem.id)

/-- Source line `sortedElements = [firstElem] + sortedOthers`. -/
def sortedElements (firstElem : Element) (startPt : Point) (others : List Element)
    (numberOnXAxis numberOnYAxis numberByProximity : Bool) : List Element :=
  firstElem :: sortedOthers startPt others numberOnXAxis numberOnYAxis numberByProximity

/-- Source line `letterGrids = [g for g in grids if GridHelper.IsAlphabetic(g.Name)]`. -/
def letterGrids (grids : List Grid) : List Grid :=
  grids.filter (fun g => GridHelper.IsAlphabetic g.name)

/-- Source line `numberGrids = [g for g in grids if GridHelper.IsNumeric(g.Name)]`. -/
def numberGrids (grids : List Grid) : List Grid :=
  grids.filter (fun g => GridHelper.IsNumeric g.name)

/-- One parameter write performed inside the STEP 9 transaction; both
parameters are set with string values. -/
inductive Write where
  | gridSquareSet (elemId : Nat) (value : String)
  | numberSet (elemId : Nat) (value : String)
deriving DecidableEq, Repr

/-- Observation of one iteration of the STEP 9 loop that passed the
location check: the element, the computed `gridSquare` label, the counter
value in force at that iteration, and the parameter writes performed. -/
structure Entry where
  elem : Element
  gridSquare : String
  seq : Nat
  writes : List Write
deriving DecidableEq, Repr

/-- Nearest grid of one classification for one element location:
`sorted(grids, key=lambda g: g.Curve.Distance(elemPt))[0]`, guarded by the
emptiness check (`if letterGrids:` / `if numberGrids:`). -/
def closestGrid (gs : List Grid) (elemPt : Point) : Option Grid :=
  (gs.mergeSort (fun a b => decide (a.curveDist elemPt ≤ b.curveDist elemPt))).head?

/-- The STEP 9 numbering loop. Elements whose location is `None` are
skipped by `continue`; for the rest the nearest letter and number grids
are found, the label is the format call joining their names with a dash
when both exist and the empty string otherwise, each existing writable parameter is set (the counter as
`str(counter)`), and `counter += 1` runs at the end of the iteration. -/
def numberingLoop (letterG numberG : List Grid) : List Element → Nat → List Entry
  | [], _ => []
  | e :: rest, counter =>
    match GridHelper.GetElementLocation (some e) with
    | none => numberingLoop letterG numberG rest counter
    | some elemPt =>
      let closestLetter := closestGrid letterG elemPt
      let closestNumber := closestGrid numberG elemPt
      let gridSquare :=
        match closestLetter, closestNumber with
        | some l, some n => l.name ++ "-" ++ n.name
        | _, _ => ""
      let gsWrites :=
        match e.gridSquareParam with
        | some p => if p.isReadOnly then [] else [Write.gridSquareSet e.id gridSquare]
        | none => []
      let numWrites :=
        match e.numberParam with
        | some p => if p.isReadOnly then [] else [Write.numberSet e.id (toString counter)]
        | none => []
      { elem := e, gridSquare := gridSquare, seq := counter,
        writes := gsWrites ++ numWrites } :: numberingLoop letterG numberG rest (counter + 1)

/-- The numbering pass of the spec contract `assign`: remove the start
element from the candidates, sort the rest by the chosen key, prepend the
start element, and run the numbering loop with the counter starting at 1. -/
def assign (firstElem : Element) (startPt : Point) (selectedElements : List Element)
    (grids : List Grid) (numberOnXAxis numberOnYAxis numberByProximity : Bool) : List Entry :=
  numberingLoop (letterGrids grids) (numberGrids grids)
    (sortedElements firstElem startPt (removeFirst firstElem selectedElements)
      numberOnXAxis numberOnYAxis numberByProximity) 1

/-- Order prescribed by the spec for `ByProximity(origin)`: stable
ascending sort of the candidates by Euclidean distance from the element
location to the origin, a missing location sorting last; embedded with the
squared-distance key, which induces the same order. -/
def specByProximityOrder (origin : Point) (others : List Element) : List Element :=
  others.mergeSort (fun a b => decide (keyProx origin a ≤ keyProx origin b))

/-- First-nearest-grid specification: the grid occurs in the list, its
distance key is minimal over the whole list, and every grid strictly
before it in input order has a strictly larger distance. -/
def IsFirstNearest (f : Grid → ℤ) (l : List Grid) (g : Grid) : Prop :=
  ∃ pre post, l = pre ++ g :: post ∧ (∀ x ∈ l, f g ≤ f x) ∧ ∀ x ∈ pre, f g < f x

/-- Concrete start element at the origin, used by witnesses. -/
def wStart : Element := ⟨0, Location.pointLoc ⟨0, 0, 0⟩, some ⟨false⟩, some ⟨false⟩⟩

/-- Concrete element at x = 5, used by witnesses. -/
def wE5 : Element := ⟨1, Location.pointLoc ⟨5, 0, 0⟩, some ⟨false⟩, some ⟨false⟩⟩

/-- Concrete element at x = -3, used by witnesses. -/
def wEm3 : Element := ⟨2, Location.pointLoc ⟨-3, 0, 0⟩, some ⟨false⟩, some ⟨false⟩⟩

/-- Concrete element with an undeterminable location, used by witnesses. -/
def wNoLoc : Element := ⟨3, Location.otherLoc, some ⟨false⟩, some ⟨false⟩⟩

/-- Concrete letter grid named A at distance 2 from the origin, used by witnesses. -/
def wGridA : Grid := ⟨"A", fun p => sqDist p ⟨2, 0, 0⟩⟩

/-- Concrete letter grid named B, equidistant with grid A from the origin, used by witnesses. -/
def wGridB : Grid := ⟨"B", fun p => sqDist p ⟨0, 2, 0⟩⟩

/-- Concrete number grid named 1 at distance 1 from the origin, used by witnesses. -/
def wGrid1 : Grid := ⟨"1", fun p => sqDist p ⟨1, 0, 0⟩⟩

/-- Concrete grid collection, used by witnesses. -/
def wGrids : List Grid := [wGridA, wGridB, wGrid1]

/-- The ordering the proximity key realizes, read through true Euclidean
distance: two located elements compare by distance from their locations to
the start point, a located element never comes after a location-less one,
and a location-less element sorts last. -/
def proxLe (startPt : Point) (a b : Element) : Prop :=
  match GridHelper.GetElementLocation (some a), GridHelper.GetElementLocation (some b) with
  | some pa, some pb => edist2 pa startPt ≤ edist2 pb startPt
  | some _, none => True
  | none, some _ => False
  | none, none => True

/-- Concrete located element with both parameter slots missing, used by
witnesses. -/
def wNoParams : Element := ⟨4, Location.pointLoc ⟨0, 0, 0⟩, none, none⟩

theorem sqDist_nonneg (p q : Point) : 0 ≤ sqDist p q := by
  unfold sqDist
  positivity

/-- Comparing Euclidean distances is the same as comparing squared
distances, so the executable squared-distance keys order elements exactly
as the script does. -/
theorem edist_le_edist_iff (p q r s : Point) :
    edist2 p q ≤ edist2 r s ↔ sqDist p q ≤ sqDist r s := by
  unfold edist2
  rw [Real.sqrt_le_sqrt_iff (by exact_mod_cast sqDist_nonneg r s)]
  exact_mod_cast Iff.rfl

theorem edist_lt_edist_iff (p q r s : Point) :
    edist2 p q < edist2 r s ↔ sqDist p q < sqDist r s := by
  constructor
  · intro h
    by_contra hle
    exact absurd ((edist_le_edist_iff r s p q).mpr (not_lt.mp hle)) (not_le.mpr h)
  · intro h
    refine lt_of_le_of_ne ((edist_le_edist_iff p q r s).mpr h.le) ?_
    intro heq
    have h1 : edist2 r s ≤ edist2 p q := le_of_eq heq.symm
    have := (edist_le_edist_iff r s p q).mp h1
    exact absurd h this.not_lt

/-- Comparator transitivity for a key-based sort. -/
theorem leByKey_trans {α β : Type} [LinearOrder β] (f : α → β) :
    ∀ a b c : α, (fun x y => decide (f x ≤ f y)) a b → (fun x y => decide (f x ≤ f y)) b c →
      (fun x y => decide (f x ≤ f y)) a c := by
  intro a b c hab hbc
  simp only [decide_eq_true_eq] at hab hbc ⊢
  exact le_trans hab hbc

/-- Comparator totality for a key-based sort. -/
theorem leByKey_total {α β : Type} [LinearOrder β] (f : α → β) :
    ∀ a b : α, (fun x y => decide (f x ≤ f y)) a b || (fun x y => decide (f x ≤ f y)) b a := by
  intro a b
  simp only [Bool.or_eq_true, decide_eq_true_eq]
  exact le_total (f a) (f b)

/-- Head of a stable key-based sort after consing one element: the new
element wins exactly when its key is less than or equal to the previous
head key. -/
theorem head_mergeSort_cons {α β : Type} [LinearOrder β] (f : α → β) (a : α) (l : List α) :
    ((a :: l).mergeSort (fun x y => decide (f x ≤ f y))).head? =
      some (match (l.mergeSort (fun x y => decide (f x ≤ f y))).head? with
            | none => a
            | some m => if f a ≤ f m then a else m) := by
  obtain ⟨l₁, l₂, h₁, h₂, h₃⟩ := List.mergeSort_cons (leByKey_trans f) (leByKey_total f) a l
  cases l₁ with
  | nil =>
    rw [h₁, h₂]
    cases l₂ with
    | nil => rfl
    | cons m t =>
      have hs := @List.sorted_mergeSort _ (fun x y => decide (f x ≤ f y))
        (leByKey_trans f) (leByKey_total f) (a :: l)
      rw [h₁] at hs
      have ham : f a ≤ f m := by
        have := List.rel_of_pairwise_cons hs (List.mem_cons_self m t)
        simpa using this
      simp [ham]
  | cons b l₁ =>
    rw [h₁, h₂]
    have hab : ¬ f a ≤ f b := by
      have := h₃ b (List.mem_cons_self b l₁)
      simpa using this
    simp [hab]

/-- Head of the stable key-based sort is the first minimum of the key. -/
theorem head_mergeSort_eq_firstMinBy {α β : Type} [LinearOrder β] (f : α → β) (l : List α) :
    (l.mergeSort (fun x y => decide (f x ≤ f y))).head? = firstMinBy f l := by
  induction l with
  | nil => simp [List.mergeSort_nil, firstMinBy]
  | cons a l ih =>
    rw [head_mergeSort_cons f a l, firstMinBy, ← ih]
    cases (l.mergeSort (fun x y => decide (f x ≤ f y))).head? with
    | none => rfl
    | some m =>
      by_cases h : f a ≤ f m <;> simp [h]

theorem firstMinBy_eq_none_iff {α β : Type} [LinearOrder β] (f : α → β) (l : List α) :
    firstMinBy f l = none ↔ l = [] := by
  cases l with
  | nil => simp [firstMinBy]
  | cons a l =>
    simp only [firstMinBy]
    constructor
    · intro h
      cases hfm : firstMinBy f l with
      | none => rw [hfm] at h; simp at h
      | some m => rw [hfm] at h; by_cases hle : f a ≤ f m <;> simp [hle] at h
    · intro h
      exact absurd h (List.cons_ne_nil a l)

/-- Specification of `firstMinBy`: the returned element occurs in the
list, its key is minimal, and every element strictly before it has a
strictly larger key. -/
theorem firstMinBy_spec {α β : Type} [LinearOrder β] (f : α → β) (l : List α) (g : α)
    (h : firstMinBy f l = some g) :
    ∃ pre post, l = pre ++ g :: post ∧ (∀ x ∈ l, f g ≤ f x) ∧ (∀ x ∈ pre, f g < f x) := by
  induction l generalizing g with
  | nil => simp [firstMinBy] at h
  | cons a l ih =>
    rw [firstMinBy] at h
    cases hfm : firstMinBy f l with
    | none =>
      rw [hfm] at h
      dsimp only at h
      have hl : l = [] := (firstMinBy_eq_none_iff f l).mp hfm
      subst hl
      simp only [Option.some.injEq] at h
      subst h
      exact ⟨[], [], rfl, by simp, by simp⟩
    | some m =>
      rw [hfm] at h
      dsimp only at h
      by_cases hle : f a ≤ f m
      · rw [if_pos hle] at h
        simp only [Option.some.injEq] at h
        subst h
        obtain ⟨pre, post, hsplit, hmin, hpre⟩ := ih m hfm
        refine ⟨[], l, rfl, ?_, by simp⟩
        intro x hx
        rcases List.mem_cons.mp hx with hx | hx
        · exact le_of_eq (congrArg f hx.symm)
        · exact le_trans hle (hmin x hx)
      · rw [if_neg hle] at h
        simp only [Option.some.injEq] at h
        subst h
        obtain ⟨pre, post, hsplit, hmin, hpre⟩ := ih m hfm
        refine ⟨a :: pre, post, by rw [hsplit, List.cons_append], ?_, ?_⟩
        · intro x hx
          rcases List.mem_cons.mp hx with hx | hx
          · exact le_of_lt (by rw [hx]; exact lt_of_not_le hle)
          · exact hmin x hx
        · intro x hx
          rcases List.mem_cons.mp hx with hx | hx
          · rw [hx]; exact lt_of_not_le hle
          · exact hpre x hx

/-- The counter values recorded by the numbering loop form the contiguous
run starting at the initial counter whose length is the number of
elements with a determinable location; skipped elements consume nothing. -/
theorem numberingLoop_map_seq (L N : List Grid) (es : List Element) (c : Nat) :
    (numberingLoop L N es c).map Entry.seq =
      List.range' c (es.countP (fun e => (GridHelper.GetElementLocation (some e)).isSome)) := by
  induction es generalizing c with
  | nil => simp [numberingLoop]
  | cons e rest ih =>
    cases hloc : GridHelper.GetElementLocation (some e) with
    | none =>
      rw [numberingLoop]
      rw [hloc]
      simp [List.countP_cons, hloc, ih]
    | some pt =>
      rw [numberingLoop]
      rw [hloc]
      simp only [List.map_cons, List.countP_cons, hloc, Option.isSome_some, if_pos]
      rw [ih]
      simp [List.range'_succ]

/-- Every entry produced by the numbering loop has a determinable
location: elements with `None` location are skipped entirely. -/
theorem numberingLoop_located (L N : List Grid) (es : List Element) (c : Nat) :
    ∀ en ∈ numberingLoop L N es c,
      (GridHelper.GetElementLocation (some en.elem)).isSome = true := by
  induction es generalizing c with
  | nil => simp [numberingLoop]
  | cons e rest ih =>
    cases hloc : GridHelper.GetElementLocation (some e) with
    | none =>
      rw [numberingLoop, hloc]
      exact ih c
    | some pt =>
      rw [numberingLoop, hloc]
      intro en hen
      rcases List.mem_cons.mp hen with hen | hen
      · subst hen
        simp [hloc]
      · exact ih (c + 1) en hen

/-- The label recorded for each entry is built from the first nearest
letter grid and first nearest number grid via `firstMinBy`, or is the
empty string when either classification is empty. -/
theorem numberingLoop_gridSquare (L N : List Grid) (es : List Element) (c : Nat) :
    ∀ en ∈ numberingLoop L N es c, ∀ pt,
      GridHelper.GetElementLocation (some en.elem) = some pt →
      en.gridSquare =
        match firstMinBy (fun g => g.curveDist pt) L, firstMinBy (fun g => g.curveDist pt) N with
        | some l, some n => l.name ++ "-" ++ n.name
        | _, _ => "" := by
  induction es generalizing c with
  | nil => simp [numberingLoop]
  | cons e rest ih =>
    cases hloc : GridHelper.GetElementLocation (some e) with
    | none =>
      rw [numberingLoop, hloc]
      exact ih c
    | some pt0 =>
      rw [numberingLoop, hloc]
      intro en hen pt hpt
      rcases List.mem_cons.mp hen with hen | hen
      · subst hen
        simp only at hpt
        rw [hloc] at hpt
        have hpt0 : pt0 = pt := Option.some.inj hpt
        subst hpt0
        show (match closestGrid L pt0, closestGrid N pt0 with
              | some l, some n => l.name ++ "-" ++ n.name
              | _, _ => "") = _
        rw [closestGrid, closestGrid,
          head_mergeSort_eq_firstMinBy (fun g => g.curveDist pt0) L,
          head_mergeSort_eq_firstMinBy (fun g => g.curveDist pt0) N]
      · exact ih (c + 1) en hen pt hpt

/-- C1: for every non-empty candidate set, the assign operation places the
start element first in the final order regardless of the chosen sort key,
and the start element receives sequence number 1. -/
theorem claim_C1_start_first (firstElem : Element) (startPt : Point)
    (selectedElements : List Element) (grids : List Grid) (fx fy fp : Bool)
    (h : GridHelper.GetElementLocation (some firstElem) = some startPt) :
    (sortedElements firstElem startPt (removeFirst firstElem selectedElements) fx fy fp).head? =
      some firstElem ∧
    ∃ en : Entry,
      (assign firstElem startPt selectedElements grids fx fy fp).head? = some en ∧
      en.elem = firstElem ∧ en.seq = 1 := by
  refine ⟨rfl, ?_⟩
  rw [assign, sortedElements, numberingLoop, h]
  exact ⟨_, rfl, rfl, rfl⟩

/-- Witness for C1: the concrete start element is placed first under the
X-axis sort key. -/
theorem claim_C1_start_first_witness :
    (sortedElements wStart ⟨0, 0, 0⟩ (removeFirst wStart [wStart, wE5, wEm3])
      true false false).head? = some wStart :=
  (claim_C1_start_first wStart ⟨0, 0, 0⟩ [wStart, wE5, wEm3] wGrids true false false rfl).1

/-- C2: an element whose location cannot be determined is skipped entirely
by the numbering pass, and the sequence numbers assigned to the located
elements form the contiguous increasing run 1, 2, ..., k in the sorted
order, with no gap introduced by skipped elements. -/
theorem claim_C2_contiguous (firstElem : Element) (startPt : Point)
    (selectedElements : List Element) (grids : List Grid) (fx fy fp : Bool) :
    (∀ en ∈ assign firstElem startPt selectedElements grids fx fy fp,
      (GridHelper.GetElementLocation (some en.elem)).isSome = true) ∧
    (assign firstElem startPt selectedElements grids fx fy fp).map Entry.seq =
      List.range' 1
        ((sortedElements firstElem startPt (removeFirst firstElem selectedElements)
            fx fy fp).countP
          (fun e => (GridHelper.GetElementLocation (some e)).isSome)) :=
  ⟨numberingLoop_located _ _ _ _, numberingLoop_map_seq _ _ _ _⟩

unseal List.mergeSort List.merge in
/-- Witness for C2: with a location-less candidate among three valid ones,
the recorded sequence numbers are exactly 1, 2, 3. -/
theorem claim_C2_contiguous_witness :
    (assign wStart ⟨0, 0, 0⟩ [wStart, wE5, wNoLoc, wEm3] wGrids true false false).map
        Entry.seq = [1, 2, 3] := by
  rw [(claim_C2_contiguous wStart ⟨0, 0, 0⟩ [wStart, wE5, wNoLoc, wEm3] wGrids
    true false false).2]
  rfl

/-- C3: for every element location, the chosen letter grid minimizes
distance-to-point over all letter grids and the chosen number grid over
all number grids; when two grids are equidistant, the one appearing first
in the input iteration order is chosen. -/
theorem claim_C3_nearest (grids : List Grid) (elemPt : Point) (gL gN : Grid)
    (hL : closestGrid (letterGrids grids) elemPt = some gL)
    (hN : closestGrid (numberGrids grids) elemPt = some gN) :
    IsFirstNearest (fun g => g.curveDist elemPt) (letterGrids grids) gL ∧
    IsFirstNearest (fun g => g.curveDist elemPt) (numberGrids grids) gN := by
  constructor
  · exact firstMinBy_spec _ _ _
      ((head_mergeSort_eq_firstMinBy (fun g : Grid => g.curveDist elemPt)
        (letterGrids grids)).symm.trans hL)
  · exact firstMinBy_spec _ _ _
      ((head_mergeSort_eq_firstMinBy (fun g : Grid => g.curveDist elemPt)
        (numberGrids grids)).symm.trans hN)

unseal List.mergeSort List.merge in
/-- Witness for C3: letter grids A and B are equidistant from the origin
and A, first in input order, is chosen; the single number grid 1 is
chosen. -/
theorem claim_C3_nearest_witness :
    IsFirstNearest (fun g => g.curveDist ⟨0, 0, 0⟩) (letterGrids wGrids) wGridA ∧
    IsFirstNearest (fun g => g.curveDist ⟨0, 0, 0⟩) (numberGrids wGrids) wGrid1 :=
  claim_C3_nearest wGrids ⟨0, 0, 0⟩ wGridA wGrid1 rfl rfl

/-- C4: the label recorded for every processed element is the string
letter-name, dash, number-name built from the nearest letter grid and the
nearest number grid when both exist, and the empty string otherwise; in
particular an empty letter-grid set forces the empty label even when a
nearest number grid exists. -/
theorem claim_C4_label (firstElem : Element) (startPt : Point)
    (selectedElements : List Element) (grids : List Grid) (fx fy fp : Bool) :
    ∀ en ∈ assign firstElem startPt selectedElements grids fx fy fp, ∀ pt,
      GridHelper.GetElementLocation (some en.elem) = some pt →
      (en.gridSquare =
        match firstMinBy (fun g => g.curveDist pt) (letterGrids grids),
              firstMinBy (fun g => g.curveDist pt) (numberGrids grids) with
        | some l, some n => l.name ++ "-" ++ n.name
        | _, _ => "") ∧
      (letterGrids grids = [] → en.gridSquare = "") := by
  intro en hen pt hpt
  have h := numberingLoop_gridSquare _ _ _ _ en hen pt hpt
  refine ⟨h, ?_⟩
  intro hemp
  rw [h, hemp]
  cases firstMinBy (fun g => g.curveDist pt) (numberGrids grids) <;> rfl

unseal List.mergeSort List.merge in
/-- Witness for C4: the concrete single-element run yields the label built
from letter grid A and number grid 1. -/
theorem claim_C4_label_witness :
    ("A-1" : String) =
      match firstMinBy (fun g => g.curveDist (⟨0, 0, 0⟩ : Point)) (letterGrids wGrids),
            firstMinBy (fun g => g.curveDist (⟨0, 0, 0⟩ : Point)) (numberGrids wGrids) with
      | some l, some n => l.name ++ "-" ++ n.name
      | _, _ => "" :=
  (claim_C4_label wStart ⟨0, 0, 0⟩ [wStart] wGrids false false true
    ⟨wStart, "A-1", 1, [Write.gridSquareSet 0 "A-1", Write.numberSet 0 "1"]⟩
    (by
      rw [show assign wStart ⟨0, 0, 0⟩ [wStart] wGrids false false true =
        [⟨wStart, "A-1", 1, [Write.gridSquareSet 0 "A-1", Write.numberSet 0 "1"]⟩] from rfl]
      exact List.mem_cons_self _ _)
    ⟨0, 0, 0⟩ rfl).1

/-- The stable key-based sort produces a list pairwise ordered by the key. -/
theorem pairwise_mergeSort_key {α β : Type} [LinearOrder β] (f : α → β) (l : List α) :
    List.Pairwise (fun a b => f a ≤ f b) (l.mergeSort (fun a b => decide (f a ≤ f b))) := by
  have h := @List.sorted_mergeSort _ (fun a b => decide (f a ≤ f b))
    (leByKey_trans f) (leByKey_total f) l
  exact h.imp (fun hab => of_decide_eq_true hab)

/-- The proximity key compares exactly as Euclidean distance with missing
locations last. -/
theorem keyProx_le_iff (startPt : Point) (a b : Element) :
    keyProx startPt a ≤ keyProx startPt b ↔ proxLe startPt a b := by
  unfold keyProx proxLe
  cases ha : GridHelper.GetElementLocation (some a) with
  | none =>
    cases hb : GridHelper.GetElementLocation (some b) with
    | none => simp
    | some pb => simp [WithTop.top_le_iff]
  | some pa =>
    cases hb : GridHelper.GetElementLocation (some b) with
    | none => simp [le_top]
    | some pb => simp [WithTop.coe_le_coe, edist_le_edist_iff]

unseal List.mergeSort List.merge in
/-- C5: the non-start elements are sorted ascending by the key of the
chosen sort option: under ByX by the location X coordinate with a missing
location treated as X = 0, under ByProximity by Euclidean distance from
the element location to the start point with a missing location sorting
last; with the start at the origin and others at x = 5 and x = -3 under
ByX, the final order is start, -3, 5 with sequence numbers 1, 2, 3. -/
theorem claim_C5_sort_keys (startPt : Point) (others : List Element) (fy fp : Bool) :
    List.Pairwise (fun a b => keyX a ≤ keyX b) (sortedOthers startPt others true fy fp) ∧
    List.Pairwise (proxLe startPt) (sortedOthers startPt others false false true) ∧
    (∀ e : Element, GridHelper.GetElementLocation (some e) = none →
      keyX e = 0 ∧ keyProx startPt e = ⊤) ∧
    sortedElements wStart ⟨0, 0, 0⟩ (removeFirst wStart [wStart, wE5, wEm3]) true false false =
      [wStart, wEm3, wE5] ∧
    (assign wStart ⟨0, 0, 0⟩ [wStart, wE5, wEm3] [] true false false).map
      (fun en => (en.elem.id, en.seq)) = [(0, 1), (2, 2), (1, 3)] := by
  refine ⟨?_, ?_, ?_, rfl, rfl⟩
  · exact pairwise_mergeSort_key keyX others
  · exact (pairwise_mergeSort_key (keyProx startPt) others).imp
      (fun hab => (keyProx_le_iff startPt _ _).mp hab)
  · intro e he
    refine ⟨?_, ?_⟩
    · rw [keyX, he]
    · rw [keyProx, he]

/-- Witness for C5: a concrete location-less element gets key 0 under ByX
and key top under ByProximity. -/
theorem claim_C5_sort_keys_witness :
    keyX wNoLoc = 0 ∧ keyProx ⟨0, 0, 0⟩ wNoLoc = ⊤ :=
  (claim_C5_sort_keys ⟨0, 0, 0⟩ [] false false).2.2.1 wNoLoc rfl

/-- C6: when no sort option is selected, the resulting order of the
non-start elements is identical to the order produced by ByProximity with
the start point as origin, both as the code computes it and as the spec
describes it. -/
theorem claim_C6_default_proximity (startPt : Point) (others : List Element) :
    sortedOthers startPt others false false false =
      sortedOthers startPt others false false true ∧
    sortedOthers startPt others false false false = specByProximityOrder startPt others :=
  ⟨rfl, rfl⟩

/-- C7: a grid is classified as a letter grid exactly when the first
character of its name is alphabetic, and as a number grid exactly when it
is numeric; a grid whose name is empty or starts with a character that is
neither is excluded from both sets. -/
theorem claim_C7_classification (grids : List Grid) (g : Grid) :
    (g ∈ letterGrids grids ↔ g ∈ grids ∧ ∃ c cs, g.name.data = c :: cs ∧ c.isAlpha = true) ∧
    (g ∈ numberGrids grids ↔ g ∈ grids ∧ ∃ c cs, g.name.data = c :: cs ∧ c.isDigit = true) ∧
    ((g.name.data = [] ∨ ∀ c cs, g.name.data = c :: cs → c.isAlpha = false ∧ c.isDigit = false) →
      g ∉ letterGrids grids ∧ g ∉ numberGrids grids) := by
  have halpha : GridHelper.IsAlphabetic g.name = true ↔
      ∃ c cs, g.name.data = c :: cs ∧ c.isAlpha = true := by
    rcases h : g.name.data with _ | ⟨c, cs⟩ <;> simp [GridHelper.IsAlphabetic, h]
  have hdigit : GridHelper.IsNumeric g.name = true ↔
      ∃ c cs, g.name.data = c :: cs ∧ c.isDigit = true := by
    rcases h : g.name.data with _ | ⟨c, cs⟩ <;> simp [GridHelper.IsNumeric, h]
  refine ⟨?_, ?_, ?_⟩
  · rw [letterGrids, List.mem_filter, halpha]
  · rw [numberGrids, List.mem_filter, hdigit]
  · intro hbad
    constructor
    · rw [letterGrids, List.mem_filter, halpha]
      rintro ⟨-, c, cs, hname, hc⟩
      rcases hbad with hbad | hbad
      · rw [hbad] at hname; cases hname
      · exact absurd hc (by rw [(hbad c cs hname).1]; decide)
    · rw [numberGrids, List.mem_filter, hdigit]
      rintro ⟨-, c, cs, hname, hc⟩
      rcases hbad with hbad | hbad
      · rw [hbad] at hname; cases hname
      · exact absurd hc (by rw [(hbad c cs hname).2]; decide)

/-- Witness for C7: the concrete grid named A is classified as a letter
grid of the concrete collection. -/
theorem claim_C7_classification_witness :
    wGridA ∈ letterGrids wGrids :=
  (claim_C7_classification wGrids wGridA).1.mpr
    ⟨List.mem_cons_self _ _, 'A', [], rfl, rfl⟩

/-- C8: the main script resolves the schema-setup helper under the
attribute name EnsureParameterExists, which the GridHelper class does not
define (its method is named ensure_parameter_exists), so the call itself
raises and the run never reaches the numbering pass; the helper body,
had it been reached, does implement the claimed behaviour: each failure
is reported through a dialog and the function returns normally in every
branch. -/
theorem claim_C8_schema_failure :
    ensureCallSiteName ∉ gridHelperAttributes ∧
    ensure_parameter_exists ⟨false, false, false⟩ "Grid Square" =
      ["No shared parameter file is defined. Please set one in Revit Options."] ∧
    ensure_parameter_exists ⟨true, false, false⟩ "Grid Square" =
      ["Could not bind parameter: Grid Square"] ∧
    ensure_parameter_exists ⟨true, true, false⟩ "Grid Square" = [] :=
  ⟨by decide, rfl, rfl, rfl⟩

/-- C9: under the ByProximity sort key, a non-start element strictly
closer to the start point than another located non-start element is
ordered strictly before it. -/
theorem claim_C9_proximity_monotone (startPt : Point) (others : List Element)
    (e1 e2 : Element) (p1 p2 : Point) (i j : Nat)
    (hi : (sortedOthers startPt others false false true)[i]? = some e1)
    (hj : (sortedOthers startPt others false false true)[j]? = some e2)
    (h1 : GridHelper.GetElementLocation (some e1) = some p1)
    (h2 : GridHelper.GetElementLocation (some e2) = some p2)
    (hlt : edist2 p1 startPt < edist2 p2 startPt) :
    i < j := by
  have hs : List.Pairwise (fun a b => keyProx startPt a ≤ keyProx startPt b)
      (sortedOthers startPt others false false true) :=
    pairwise_mergeSort_key (keyProx startPt) others
  obtain ⟨hilen, hieq⟩ := List.getElem?_eq_some.mp hi
  obtain ⟨hjlen, hjeq⟩ := List.getElem?_eq_some.mp hj
  rcases lt_trichotomy i j with h | h | h
  · exact h
  · exfalso
    subst h
    have he : e1 = e2 := by rw [← hieq, ← hjeq]
    rw [he, h2] at h1
    have hp : p1 = p2 := (Option.some.inj h1).symm
    rw [hp] at hlt
    exact lt_irrefl _ hlt
  · exfalso
    have hrel := List.pairwise_iff_getElem.mp hs j i hjlen hilen h
    rw [hieq, hjeq] at hrel
    have hk1 : keyProx startPt e1 = ((sqDist p1 startPt : ℤ) : WithTop ℤ) := by
      rw [keyProx, h1]
    have hk2 : keyProx startPt e2 = ((sqDist p2 startPt : ℤ) : WithTop ℤ) := by
      rw [keyProx, h2]
    rw [hk1, hk2, WithTop.coe_le_coe] at hrel
    exact absurd ((edist_le_edist_iff p2 startPt p1 startPt).mpr hrel) (not_le.mpr hlt)

unseal List.mergeSort List.merge in
/-- Witness for C9: with candidates at x = 5 and x = -3 and the start at
the origin, the closer element lands at index 0, the farther at index 1. -/
theorem claim_C9_proximity_monotone_witness :
    (sortedOthers ⟨0, 0, 0⟩ [wE5, wEm3] false false true)[0]? = some wEm3 ∧
    (sortedOthers ⟨0, 0, 0⟩ [wE5, wEm3] false false true)[1]? = some wE5 ∧
    (0 : Nat) < 1 :=
  ⟨rfl, rfl,
    claim_C9_proximity_monotone ⟨0, 0, 0⟩ [wE5, wEm3] wEm3 wE5 ⟨-3, 0, 0⟩ ⟨5, 0, 0⟩ 0 1
      rfl rfl rfl rfl ((edist_lt_edist_iff _ _ _ _).mpr (by decide))⟩

/-- C10: for an element with a determinable location the counter advances
by exactly one even when the Number parameter is missing or read-only (no
write is recorded but the number is consumed), and when the parameter is
writable the value written is the decimal string representation of the
counter. -/
theorem claim_C10_counter (L N : List Grid) (e : Element) (rest : List Element)
    (c : Nat) (pt : Point)
    (hloc : GridHelper.GetElementLocation (some e) = some pt) :
    ((numberingLoop L N (e :: rest) c).map Entry.seq =
      c :: (numberingLoop L N rest (c + 1)).map Entry.seq) ∧
    ((numberingLoop L N (e :: rest) c).tail = numberingLoop L N rest (c + 1)) ∧
    (∀ en, (numberingLoop L N (e :: rest) c).head? = some en →
      ((e.numberParam = none ∨ e.numberParam = some ⟨true⟩) →
        ∀ v, Write.numberSet e.id v ∉ en.writes) ∧
      (e.numberParam = some ⟨false⟩ → Write.numberSet e.id (toString c) ∈ en.writes)) := by
  rw [numberingLoop, hloc]
  refine ⟨rfl, rfl, ?_⟩
  intro en hen
  have hen' := Option.some.inj hen
  subst hen'
  constructor
  · rintro hnp v hmem
    rcases List.mem_append.mp hmem with hmem | hmem
    · cases hq : e.gridSquareParam with
      | none => rw [hq] at hmem; simp at hmem
      | some p =>
        rw [hq] at hmem
        by_cases hro : p.isReadOnly <;> simp [hro] at hmem
    · rcases hnp with hnp | hnp <;> rw [hnp] at hmem <;> simp at hmem
  · intro hnp
    rw [hnp]
    exact List.mem_append.mpr (Or.inr (by simp))

/-- Witness for C10: a located element with no parameter slots at all
still consumes counter value 7. -/
theorem claim_C10_counter_witness :
    (numberingLoop [] [] [wNoParams] 7).map Entry.seq =
      7 :: (numberingLoop [] [] [] 8).map Entry.seq :=
  (claim_C10_counter [] [] wNoParams [] 7 ⟨0, 0, 0⟩ rfl).1
